import Mathlib

/-!
Verification of the rotating file logger (package `logger`, file
`logger/logfile.go`) of varnson/go-hclog.

The Go code is shallowly embedded: every operation of the `LogFile`
writer becomes a pure Lean function that takes the writer state and an
environment describing the operating-system behaviour observed during
the call (current time, success of `os.OpenFile`, the directory listing
seen by `filepath.Walk`, the return value of the underlying
`os.File.Write`, ...) and returns the result, the new writer state and
the trace of file-system operations performed.  Go machine integers
(`int`, `int64`, `time.Duration` in nanoseconds) are modelled as `Int`;
no quantity in the claims comes near the 64-bit range, so overflow is
not modelled.  Records (`[]byte`) are modelled as `List Nat`.
-/

namespace GoHclog

/-! ### Model of the Go standard-library string helpers used by the code -/

/-- Model of Go `filepath.Ext`, working on the reversed character list of
the path.  Go scans from the end of the string: a path separator before
any dot yields the empty extension, otherwise the suffix starting at the
last dot is returned.  `acc` holds the characters already passed, in
forward order. -/
def extRev : List Char → List Char → List Char
  | [], _ => []
  | c :: rest, acc =>
    if c = '/' then []
    else if c = '.' then c :: acc
    else extRev rest (c :: acc)

/-- Model of Go `filepath.Ext`: the suffix beginning at the final dot of
the final path element, empty when there is none. -/
def Ext (s : String) : String := ⟨extRev s.data.reverse []⟩

/-- Model of Go `strings.TrimSuffix`: remove `suf` from the end of `s`
when it is a suffix, otherwise return `s` unchanged. -/
def trimSuffix (s suf : String) : String :=
  if suf.data <:+ s.data then ⟨s.data.take (s.data.length - suf.data.length)⟩
  else s

/-- Model of Go `filepath.Join` for two nonempty, already-clean
components, which is the only way the code uses it. -/
def joinPath (dir name : String) : String := dir ++ "/" ++ name

/-! ### Model of the Go time formatting used for rotated file names

`openNew` formats `time.Unix(createTime.Unix(), 0)` with the layout
string for YYYYMMDDHHMMSS, i.e. the creation time truncated to second
resolution.  Time instants are nanoseconds since the Unix epoch; the
calendar conversion below is the standard civil-from-days algorithm and
renders the instant in UTC. -/

/-- Unix seconds of an instant given in nanoseconds (`time.Time.Unix`). -/
def unixSec (ns : Int) : Int := Int.fdiv ns 1000000000

/-- Convert a count of days since 1970-01-01 to a civil (year, month,
day) triple. -/
def civilFromDays (z0 : Int) : Int × Int × Int :=
  let z := z0 + 719468
  let era := Int.fdiv z 146097
  let doe := z - era * 146097
  let yoe := Int.fdiv (doe - Int.fdiv doe 1460 + Int.fdiv doe 36524 - Int.fdiv doe 146096) 365
  let y := yoe + era * 400
  let doy := doe - (365 * yoe + Int.fdiv yoe 4 - Int.fdiv yoe 100)
  let mp := Int.fdiv (5 * doy + 2) 153
  let d := doy - Int.fdiv (153 * mp + 2) 5 + 1
  let m := if mp < 10 then mp + 3 else mp - 9
  (if m ≤ 2 then y + 1 else y, m, d)

/-- Left-pad a number to two digits. -/
def pad2 (n : Int) : String := if n < 10 then "0" ++ toString n else toString n

/-- Left-pad a number to four digits. -/
def pad4 (n : Int) : String :=
  if n < 10 then "000" ++ toString n
  else if n < 100 then "00" ++ toString n
  else if n < 1000 then "0" ++ toString n
  else toString n

/-- Model of Go `time.Format` with layout 20060102150405 applied to a
time given in Unix seconds: YYYYMMDDHHMMSS. -/
def fmtYmdHMS (sec : Int) : String :=
  let days := Int.fdiv sec 86400
  let sod := sec - days * 86400
  let ymd := civilFromDays days
  pad4 ymd.1 ++ pad2 ymd.2.1 ++ pad2 ymd.2.2 ++
    pad2 (Int.fdiv sod 3600) ++ pad2 (Int.emod (Int.fdiv sod 60) 60) ++ pad2 (Int.emod sod 60)

example : fmtYmdHMS 0 = "19700101000000" := by decide
example : fmtYmdHMS 60 = "19700101000100" := by decide
example : fmtYmdHMS 1678886461 = "20230315132101" := by decide

/-! ### The writer state (Go struct LogFile)

The mutex field is not modelled: the embedding is sequential, one call
at a time.  The level filter `logutils.LevelFilter` is an external
dependency of the repository; only its `Check : []byte → bool` shape is
used, so it is carried as an abstract predicate on records.  The file
handle `FileInfo *os.File` only matters through its presence, so it is
a `Bool` (`true` = a handle is installed, Go non-nil). -/

structure LogFile where
  logFilter : List Nat → Bool
  fileName : String
  fullName : String
  rotateName : String
  logPath : String
  duration : Int
  LastCreated : Int
  FileInfo : Bool
  MaxBytes : Int
  BytesWritten : Int
  MaxFiles : Int

/-- One file-system operation performed during a call, in order.  The
Bool on openFile, closeFile and rename records whether the operating
system reported success; the code inspects it only for openFile. -/
inductive FSOp where
  | openFile (path : String) (ok : Bool)
  | closeFile (ok : Bool)
  | rename (oldPath newPath : String) (ok : Bool)
  | remove (path : String)
  | fileWrite (n : Nat) (errored : Bool)
deriving DecidableEq

/-- A file-info record visited by `filepath.Walk`, in traversal order:
the full path handed to the walk function, the base name `f.Name()`,
whether it is a directory, and its modification time in nanoseconds.
The model covers a flat target directory (the only layout the logger
creates), where a SkipDir returned for a file ends the walk. -/
structure DirEntry where
  path : String
  name : String
  isDir : Bool
  modTime : Int
deriving DecidableEq

/-- The operating-system behaviour observed during one call: the value
of `now()`, whether `os.OpenFile` succeeds on a given path, the results
of `Close` and `os.Rename` (both ignored by the code), the directory
listing seen by `filepath.Walk`, and the `(n, err)` returned by the
underlying `os.File.Write`. -/
structure Env where
  now : Int
  openOk : String → Bool
  closeOk : Bool
  renameOk : Bool
  dirEntries : List DirEntry
  writeRet : Nat × Bool

/-! ### The operations of logger/logfile.go -/

/-- Go `LogFile.fileNamePattern`: the pattern string
`TrimSuffix(fileName, ext) ++ "%s" ++ ext` (with ext defaulting to
".log") is rendered as the pair (part before %s, part after %s);
`fmt.Sprintf(pattern, s)` is then `pat.1 ++ s ++ pat.2`. -/
def fileNamePattern (l : LogFile) : String × String :=
  let fileExt := Ext l.fileName
  let fileExt := if fileExt = "" then ".log" else fileExt
  (trimSuffix l.fileName fileExt, fileExt)

/-- Go `LogFile.openNew`.  Note that `fullName` and `rotateName` are
assigned before the `os.OpenFile` attempt, hence are updated even when
the open fails; `FileInfo`, `LastCreated` and `BytesWritten` are
assigned only on success.  Returns (success, new state, trace). -/
def openNew (env : Env) (l : LogFile) : Bool × LogFile × List FSOp :=
  let pat := fileNamePattern l
  let createTime := env.now
  let rotateName0 := pat.1 ++ ("-" ++ fmtYmdHMS (unixSec createTime)) ++ pat.2
  let newfileName := pat.1 ++ "" ++ pat.2
  let newfilePath := joinPath l.logPath newfileName
  let l1 := { l with fullName := newfilePath, rotateName := joinPath l.logPath rotateName0 }
  if env.openOk newfilePath then
    (true,
     { l1 with FileInfo := true, LastCreated := createTime, BytesWritten := 0 },
     [FSOp.openFile newfilePath true])
  else
    (false, l1, [FSOp.openFile newfilePath false])

/-- Thirty days in nanoseconds (Go 30*24*time.Hour). -/
def thirtyDays : Int := 30 * 24 * 60 * 60 * 1000000000

/-- The walk function passed to `filepath.Walk` inside `rotate`, folded
over the traversal-ordered directory listing: directories are skipped,
files whose name does not end in the hardcoded ".log" are skipped, a
file older than thirty days is removed, and the first file that is a
".log" file but not yet stale stops the walk (filepath.SkipDir). -/
def walkPrune (nowT : Int) : List DirEntry → List FSOp
  | [] => []
  | e :: rest =>
    if e.isDir then walkPrune nowT rest
    else if ¬ (".log".data <:+ e.name.data) then walkPrune nowT rest
    else if nowT - e.modTime > thirtyDays then FSOp.remove e.path :: walkPrune nowT rest
    else []

/-- The rotation condition of Go `LogFile.rotate` line 95:
`(BytesWritten >= int64(MaxBytes) && MaxBytes > 0) || timeElapsed >= duration`
where `timeElapsed = time.Since(LastCreated)`. -/
def rotateCond (l : LogFile) (nowT : Int) : Bool :=
  (decide (l.BytesWritten ≥ l.MaxBytes) && decide (l.MaxBytes > 0)) ||
    decide (nowT - l.LastCreated ≥ l.duration)

/-- Go `LogFile.rotate`: when the rotation condition holds, close the
active handle (error ignored), rename `fullName` to `rotateName` (error
ignored), delete old ".log" files via the walk, and reopen with
`openNew`, whose error is the only one returned.  Otherwise do nothing.
Returns (success, new state, trace). -/
def rotate (env : Env) (l : LogFile) : Bool × LogFile × List FSOp :=
  if rotateCond l env.now then
    let r := openNew env l
    (r.1, r.2.1,
     FSOp.closeFile env.closeOk ::
       FSOp.rename l.fullName l.rotateName env.renameOk ::
         (walkPrune env.now env.dirEntries ++ r.2.2))
  else
    (true, l, [])

/-- Go `LogFile.Write`: reject records the level filter refuses with
(0, nil); otherwise (under the lock) lazily open the active file when
there is no handle, run the rotation check, then increment
`BytesWritten` by `len(b)` and return the result of the underlying
file write.  Returns ((n, errored), new state, trace). -/
def Write (env : Env) (l : LogFile) (b : List Nat) : (Nat × Bool) × LogFile × List FSOp :=
  if l.logFilter b then
    match (if l.FileInfo then (true, l, ([] : List FSOp)) else openNew env l) with
    | (false, l1, tr1) => ((0, true), l1, tr1)
    | (true, l1, tr1) =>
      match rotate env l1 with
      | (false, l2, tr2) => ((0, true), l2, tr1 ++ tr2)
      | (true, l2, tr2) =>
        (env.writeRet,
         { l2 with BytesWritten := l2.BytesWritten + (b.length : Int) },
         tr1 ++ tr2 ++ [FSOp.fileWrite env.writeRet.1 env.writeRet.2])
  else
    ((0, false), l, [])

/-- Insert a string into a list sorted ascending (helper for the sorted
output of Go `filepath.Glob`). -/
def insertSorted (x : String) : List String → List String
  | [] => [x]
  | y :: ys => if y < x then y :: insertSorted x ys else x :: y :: ys

/-- Sort strings ascending, as `filepath.Glob` returns its matches. -/
def sortStrings : List String → List String
  | [] => []
  | x :: xs => insertSorted x (sortStrings xs)

/-- Whether a base name matches the glob pattern prefix ++ * ++ suffix,
where * matches any (possibly empty) run of non-separator characters. -/
def globMatch (pre ext : String) (name : String) : Bool :=
  pre.data.isPrefixOf name.data && ext.data.isSuffixOf name.data &&
    decide (pre.length + ext.length ≤ name.length) &&
    !((name.data.drop pre.length).take (name.length - pre.length - ext.length)).contains '/'

/-- The sorted full paths that Go `filepath.Glob` returns inside
`pruneFiles` for the pattern `Join(logPath, Sprintf(pattern, "*"))`,
given the names present in the log directory. -/
def globMatches (l : LogFile) (files : List String) : List String :=
  let pat := fileNamePattern l
  (sortStrings (files.filter (globMatch pat.1 pat.2))).map (joinPath l.logPath)

/-- Go `LogFile.pruneFiles`, returning the paths it removes: a no-op
when `MaxFiles == 0`, otherwise remove the first
`len(matches) - MaxFiles` glob matches in sorted order.  `files` is the
listing of the log directory. -/
def pruneFiles (l : LogFile) (files : List String) : List String :=
  if l.MaxFiles = 0 then []
  else
    let ms := globMatches l files
    let stale := (ms.length : Int) - l.MaxFiles
    ms.take stale.toNat

/-! ### The Namer: the paths openNew computes -/

/-- The path of the active log file as computed by `openNew`:
`Join(logPath, Sprintf(fileNamePattern, ""))`. -/
def activePath (l : LogFile) : String :=
  joinPath l.logPath ((fileNamePattern l).1 ++ "" ++ (fileNamePattern l).2)

/-- The rotated-file path `openNew` stores in `rotateName` for a file
created at Unix second `sec`:
`Join(logPath, Sprintf(fileNamePattern, "-" ++ fmtYmdHMS sec))`. -/
def rotatedPath (l : LogFile) (sec : Int) : String :=
  joinPath l.logPath ((fileNamePattern l).1 ++ ("-" ++ fmtYmdHMS sec) ++ (fileNamePattern l).2)

/-! ### Trace observations -/

/-- The paths removed in a trace. -/
def removes (tr : List FSOp) : List String :=
  tr.filterMap fun op => match op with
    | FSOp.remove p => some p
    | _ => none

/-- Whether an operation is a rename. -/
def isRenameOp : FSOp → Bool := fun op => match op with
  | FSOp.rename _ _ _ => true
  | _ => false

/-- The number of rename events in a trace: how many rotations happened. -/
def renameCount (tr : List FSOp) : Nat := tr.countP isRenameOp

/-! ### The Namer, stated the way the spec words it -/

/-- The active path as section 4.1 of the spec words it: directory /
baseName with the extension preserved, defaulting to ".log" when
baseName has none. -/
def activePathSpec (l : LogFile) : String :=
  if Ext l.fileName = "" then joinPath l.logPath (l.fileName ++ ".log")
  else joinPath l.logPath l.fileName

/-- The rotated path as section 4.1 of the spec words it: the name
portion suffixed with "-" followed by the formatted timestamp, inserted
before the extension. -/
def rotatedPathSpec (l : LogFile) (sec : Int) : String :=
  let ext := if Ext l.fileName = "" then ".log" else Ext l.fileName
  joinPath l.logPath (trimSuffix l.fileName ext ++ "-" ++ fmtYmdHMS sec ++ ext)

/-! ### String lemmas about the extension helpers -/

theorem extRev_nil_or_suffix (rev acc : List Char) :
    extRev rev acc = [] ∨ extRev rev acc <:+ (rev.reverse ++ acc) := by
  induction rev generalizing acc with
  | nil => left; rfl
  | cons c rest ih =>
    by_cases hc : c = '/'
    · left; simp [extRev, hc]
    · by_cases hd : c = '.'
      · right
        have he : extRev (c :: rest) acc = c :: acc := by simp [extRev, hc, hd]
        rw [he, List.reverse_cons, List.append_assoc, List.singleton_append]
        exact List.suffix_append _ _
      · have he : extRev (c :: rest) acc = extRev rest (c :: acc) := by
          simp [extRev, hc, hd]
        rcases ih (c :: acc) with h | h
        · left; rw [he, h]
        · right
          rw [he, List.reverse_cons, List.append_assoc, List.singleton_append]
          exact h

theorem Ext_empty_or_suffix (s : String) :
    Ext s = "" ∨ (Ext s).data <:+ s.data := by
  rcases extRev_nil_or_suffix s.data.reverse [] with h | h
  · left
    apply String.ext
    rw [Ext, h]
  · right
    rw [List.append_nil, List.reverse_reverse] at h
    exact h

theorem trimSuffix_append (s suf : String) (h : suf.data <:+ s.data) :
    trimSuffix s suf ++ suf = s := by
  obtain ⟨t, ht⟩ := h
  rw [trimSuffix, if_pos ⟨t, ht⟩]
  apply String.ext
  rw [String.data_append]
  show s.data.take (s.data.length - suf.data.length) ++ suf.data = s.data
  rw [← ht, List.length_append, Nat.add_sub_cancel, List.take_left]

theorem Ext_of_dotlog_suffix (s : String) (h : ".log".data <:+ s.data) :
    Ext s = ".log" := by
  obtain ⟨t, ht⟩ := h
  have hrev : s.data.reverse = 'g' :: 'o' :: 'l' :: '.' :: t.reverse := by
    rw [← ht, List.reverse_append]
    rfl
  rw [Ext, hrev]
  rfl

theorem trimSuffix_of_no_ext (s : String) (h : Ext s = "") :
    trimSuffix s ".log" = s := by
  rw [trimSuffix, if_neg]
  intro hsuf
  rw [Ext_of_dotlog_suffix s hsuf] at h
  exact absurd h (by decide)

/-! ### Scenario lemmas: Write characterized in each branch -/

theorem openNew_eq (env : Env) (l : LogFile) :
    openNew env l =
      (if env.openOk (activePath l) then
        (true,
         { l with fullName := activePath l, rotateName := rotatedPath l (unixSec env.now),
                  FileInfo := true, LastCreated := env.now, BytesWritten := 0 },
         [FSOp.openFile (activePath l) true])
      else
        (false,
         { l with fullName := activePath l, rotateName := rotatedPath l (unixSec env.now) },
         [FSOp.openFile (activePath l) false])) := rfl

theorem write_no_rotation (env : Env) (l : LogFile) (b : List Nat)
    (hfil : l.logFilter b = true) (hF : l.FileInfo = true)
    (hc : rotateCond l env.now = false) :
    Write env l b =
      (env.writeRet,
       { l with BytesWritten := l.BytesWritten + (b.length : Int) },
       [FSOp.fileWrite env.writeRet.1 env.writeRet.2]) := by
  simp [Write, rotate, hfil, hF, hc]

theorem write_rotation_ok (env : Env) (l : LogFile) (b : List Nat)
    (hfil : l.logFilter b = true) (hF : l.FileInfo = true)
    (hc : rotateCond l env.now = true) (ho : env.openOk (activePath l) = true) :
    Write env l b =
      (env.writeRet,
       { l with fullName := activePath l, rotateName := rotatedPath l (unixSec env.now),
                FileInfo := true, LastCreated := env.now, BytesWritten := (b.length : Int) },
       FSOp.closeFile env.closeOk ::
         FSOp.rename l.fullName l.rotateName env.renameOk ::
           (walkPrune env.now env.dirEntries ++
             [FSOp.openFile (activePath l) true,
              FSOp.fileWrite env.writeRet.1 env.writeRet.2])) := by
  simp [Write, rotate, openNew_eq, hfil, hF, hc, ho]

theorem write_rotation_reopen_fails (env : Env) (l : LogFile) (b : List Nat)
    (hfil : l.logFilter b = true) (hF : l.FileInfo = true)
    (hc : rotateCond l env.now = true) (ho : env.openOk (activePath l) = false) :
    Write env l b =
      ((0, true),
       { l with fullName := activePath l, rotateName := rotatedPath l (unixSec env.now) },
       FSOp.closeFile env.closeOk ::
         FSOp.rename l.fullName l.rotateName env.renameOk ::
           (walkPrune env.now env.dirEntries ++ [FSOp.openFile (activePath l) false])) := by
  simp [Write, rotate, openNew_eq, hfil, hF, hc, ho]

theorem write_lazy_open_fails (env : Env) (l : LogFile) (b : List Nat)
    (hfil : l.logFilter b = true) (hF : l.FileInfo = false)
    (ho : env.openOk (activePath l) = false) :
    Write env l b =
      ((0, true),
       { l with fullName := activePath l, rotateName := rotatedPath l (unixSec env.now) },
       [FSOp.openFile (activePath l) false]) := by
  simp [Write, openNew_eq, hfil, hF, ho]

/-! ### Trace counting lemmas -/

theorem renameCount_nil : renameCount [] = 0 := rfl

theorem renameCount_cons (op : FSOp) (tr : List FSOp) :
    renameCount (op :: tr) = renameCount tr + (if isRenameOp op then 1 else 0) :=
  List.countP_cons _ _ _

theorem renameCount_append (t1 t2 : List FSOp) :
    renameCount (t1 ++ t2) = renameCount t1 + renameCount t2 :=
  List.countP_append _ _ _

theorem renameCount_walkPrune (t : Int) (es : List DirEntry) :
    renameCount (walkPrune t es) = 0 := by
  induction es with
  | nil => rfl
  | cons e rest ih =>
    rw [walkPrune]
    split_ifs <;> simp [renameCount_nil, renameCount_cons, isRenameOp, ih]

theorem renameCount_openNew (env : Env) (l : LogFile) :
    renameCount (openNew env l).2.2 = 0 := by
  rw [openNew_eq]
  split_ifs <;> rfl

theorem renameCount_rotate (env : Env) (l : LogFile) :
    renameCount (rotate env l).2.2 = if rotateCond l env.now then 1 else 0 := by
  rw [rotate]
  split_ifs with hc
  · show renameCount (FSOp.closeFile _ :: FSOp.rename _ _ _ ::
      (walkPrune env.now env.dirEntries ++ (openNew env l).2.2)) = 1
    rw [renameCount_cons, renameCount_cons, renameCount_append,
      renameCount_walkPrune, renameCount_openNew]
    rfl
  · rfl

theorem renameCount_Write_le_one (env : Env) (l : LogFile) (b : List Nat) :
    renameCount (Write env l b).2.2 ≤ 1 := by
  by_cases hfil : l.logFilter b = true
  · rw [Write, if_pos hfil]
    rcases hEq : (if l.FileInfo then (true, l, ([] : List FSOp)) else openNew env l) with
      ⟨ok1, l1, tr1⟩
    have htr1 : renameCount tr1 = 0 := by
      by_cases hF : l.FileInfo
      · rw [if_pos hF] at hEq
        cases hEq
        rfl
      · rw [if_neg hF] at hEq
        have h0 := renameCount_openNew env l
        rw [hEq] at h0
        exact h0
    cases ok1 with
    | false =>
      show renameCount tr1 ≤ 1
      rw [htr1]
      exact Nat.zero_le 1
    | true =>
      rcases hR : rotate env l1 with ⟨ok2, l2, tr2⟩
      have htr2 : renameCount tr2 ≤ 1 := by
        have h1 := renameCount_rotate env l1
        rw [hR] at h1
        simp only at h1
        rw [h1]
        split_ifs <;> simp
      cases ok2 with
      | false =>
        simp only [hR]
        rw [renameCount_append, htr1]
        simpa using htr2
      | true =>
        simp only [hR]
        rw [renameCount_append, renameCount_append, htr1, renameCount_nil.symm]
        simpa [renameCount_nil] using htr2
  · rw [Write, if_neg hfil]
    exact Nat.zero_le 1

/-- C6: the Namer is a deterministic pure function of the
configuration: the active path is directory/baseName with the extension
preserved (defaulting to ".log" when baseName has no extension), the
rotated path inserts "-" followed by the YYYYMMDDHHMMSS-formatted
second-resolution timestamp before the extension, and two calls with
the same timestamp and configuration yield the same path. -/
theorem c6_namer_matches_spec (l : LogFile) :
    activePath l = activePathSpec l ∧
    (∀ sec : Int, rotatedPath l sec = rotatedPathSpec l sec) ∧
    (∀ sec : Int, rotatedPath l sec = rotatedPath l sec) := by
  refine ⟨?_, ?_, fun _ => rfl⟩
  · by_cases h : Ext l.fileName = ""
    · simp [activePath, activePathSpec, fileNamePattern, h, trimSuffix_of_no_ext _ h]
    · have hs : (Ext l.fileName).data <:+ l.fileName.data :=
        (Ext_empty_or_suffix _).resolve_left h
      simp [activePath, activePathSpec, fileNamePattern, h, trimSuffix_append _ _ hs]
  · intro sec
    simp [rotatedPath, rotatedPathSpec, fileNamePattern, String.append_assoc]

theorem rotateCond_iff (l : LogFile) (t : Int) :
    rotateCond l t = true ↔
      ((l.BytesWritten ≥ l.MaxBytes ∧ l.MaxBytes > 0) ∨ t - l.LastCreated ≥ l.duration) := by
  simp [rotateCond]

theorem renameCount_Write_of_FileInfo (env : Env) (l : LogFile) (b : List Nat)
    (hF : l.FileInfo = true) (hfil : l.logFilter b = true) :
    renameCount (Write env l b).2.2 = if rotateCond l env.now then 1 else 0 := by
  by_cases hc : rotateCond l env.now = true
  · by_cases ho : env.openOk (activePath l) = true
    · rw [write_rotation_ok env l b hfil hF hc ho, if_pos hc]
      show renameCount (_ :: _ :: (walkPrune env.now env.dirEntries ++ _)) = 1
      rw [renameCount_cons, renameCount_cons, renameCount_append, renameCount_walkPrune]
      rfl
    · have ho' : env.openOk (activePath l) = false := by simpa using ho
      rw [write_rotation_reopen_fails env l b hfil hF hc ho', if_pos hc]
      show renameCount (_ :: _ :: (walkPrune env.now env.dirEntries ++ _)) = 1
      rw [renameCount_cons, renameCount_cons, renameCount_append, renameCount_walkPrune]
      rfl
  · have hc' : rotateCond l env.now = false := by simpa using hc
    rw [write_no_rotation env l b hfil hF hc', if_neg hc]
    rfl

/-- C4: a record rejected by the level filter makes Write return
(0, no error) immediately, with no file-system operation performed (in
particular no file is created when none exists) and the writer state,
bytesWritten included, unchanged. -/
theorem c4_rejected_record_noop (env : Env) (l : LogFile) (b : List Nat)
    (h : l.logFilter b = false) :
    Write env l b = ((0, false), l, []) := by
  simp [Write, h]

def lC4 : LogFile where
  logFilter := fun _ => false
  fileName := "app.log"
  fullName := "d/app.log"
  rotateName := "d/app-19700101000000.log"
  logPath := "d"
  duration := 1000
  LastCreated := 0
  FileInfo := false
  MaxBytes := 100
  BytesWritten := 5
  MaxFiles := 0

def envC4 : Env where
  now := 10
  openOk := fun _ => true
  closeOk := true
  renameOk := true
  dirEntries := []
  writeRet := (3, false)

theorem c4_rejected_record_noop_witness :
    lC4.logFilter [1, 2] = false ∧ Write envC4 lC4 [1, 2] = ((0, false), lC4, []) :=
  ⟨rfl, c4_rejected_record_noop envC4 lC4 [1, 2] rfl⟩

/-- C3: on an accepted Write with an existing active handle, a rotation
happens iff (bytesWritten ≥ maxBytes and maxBytes > 0) or
now - createdAt ≥ rotationInterval; in particular with a 1-hour
interval and the clock at least one hour past creation the write
rotates regardless of bytesWritten; and any Write call performs at most
one rotation. -/
theorem c3_rotation_condition (env : Env) (l : LogFile) (b : List Nat)
    (hF : l.FileInfo = true) (hfil : l.logFilter b = true) :
    (0 < renameCount (Write env l b).2.2 ↔
      ((l.BytesWritten ≥ l.MaxBytes ∧ l.MaxBytes > 0) ∨
        env.now - l.LastCreated ≥ l.duration)) ∧
    (l.duration = 3600 * 1000000000 → env.now - l.LastCreated ≥ l.duration →
      0 < renameCount (Write env l b).2.2) ∧
    (∀ (env' : Env) (l' : LogFile) (b' : List Nat),
      renameCount (Write env' l' b').2.2 ≤ 1) := by
  have hiff : 0 < renameCount (Write env l b).2.2 ↔
      ((l.BytesWritten ≥ l.MaxBytes ∧ l.MaxBytes > 0) ∨
        env.now - l.LastCreated ≥ l.duration) := by
    rw [renameCount_Write_of_FileInfo env l b hF hfil, ← rotateCond_iff]
    split_ifs with h <;> simp [h]
  refine ⟨hiff, fun _ h2 => hiff.mpr (Or.inr h2),
    fun env' l' b' => renameCount_Write_le_one env' l' b'⟩

def lC3 : LogFile where
  logFilter := fun _ => true
  fileName := "app.log"
  fullName := "d/app.log"
  rotateName := "d/app-19700101000000.log"
  logPath := "d"
  duration := 3600 * 1000000000
  LastCreated := 0
  FileInfo := true
  MaxBytes := 100
  BytesWritten := 5
  MaxFiles := 0

def envC3 : Env where
  now := 3600 * 1000000000
  openOk := fun _ => true
  closeOk := true
  renameOk := true
  dirEntries := []
  writeRet := (2, false)

theorem c3_rotation_condition_witness :
    (0 < renameCount (Write envC3 lC3 [7, 7]).2.2 ↔
      ((lC3.BytesWritten ≥ lC3.MaxBytes ∧ lC3.MaxBytes > 0) ∨
        envC3.now - lC3.LastCreated ≥ lC3.duration)) ∧
    0 < renameCount (Write envC3 lC3 [7, 7]).2.2 ∧
    renameCount (Write envC3 lC3 [7, 7]).2.2 ≤ 1 :=
  ⟨(c3_rotation_condition envC3 lC3 [7, 7] rfl rfl).1,
   (c3_rotation_condition envC3 lC3 [7, 7] rfl rfl).2.1 rfl (by decide),
   (c3_rotation_condition envC3 lC3 [7, 7] rfl rfl).2.2 envC3 lC3 [7, 7]⟩

/-- C10: a zero (unconfigured) rotation interval makes the time
condition hold on every accepted write once the active handle exists,
so every such write rotates; by contrast maxBytes = 0 disables the
size-based disjunct of the rotation condition. -/
theorem c10_zero_interval_always_rotates (env : Env) (l : LogFile) (b : List Nat)
    (hd : l.duration = 0) (hfil : l.logFilter b = true) (hF : l.FileInfo = true)
    (hle : l.LastCreated ≤ env.now) :
    0 < renameCount (Write env l b).2.2 ∧
    (∀ (l' : LogFile) (t : Int), l'.MaxBytes = 0 →
      (rotateCond l' t = true ↔ t - l'.LastCreated ≥ l'.duration)) := by
  constructor
  · have hc : rotateCond l env.now = true := by
      rw [rotateCond_iff]
      right
      rw [hd]
      omega
    rw [renameCount_Write_of_FileInfo env l b hF hfil, if_pos hc]
    norm_num
  · intro l' t hMB
    rw [rotateCond_iff]
    constructor
    · rintro (⟨_, h2⟩ | h)
      · rw [hMB] at h2
        exact absurd h2 (lt_irrefl 0)
      · exact h
    · exact Or.inr

def lC10 : LogFile where
  logFilter := fun _ => true
  fileName := "app.log"
  fullName := "d/app.log"
  rotateName := "d/app-19700101000000.log"
  logPath := "d"
  duration := 0
  LastCreated := 5
  FileInfo := true
  MaxBytes := 0
  BytesWritten := 1
  MaxFiles := 0

def envC10 : Env where
  now := 5
  openOk := fun _ => true
  closeOk := true
  renameOk := true
  dirEntries := []
  writeRet := (1, false)

theorem c10_zero_interval_always_rotates_witness :
    0 < renameCount (Write envC10 lC10 [9]).2.2 ∧
    (rotateCond lC10 envC10.now = true ↔
      envC10.now - lC10.LastCreated ≥ lC10.duration) :=
  ⟨(c10_zero_interval_always_rotates envC10 lC10 [9] rfl rfl rfl (by decide)).1,
   (c10_zero_interval_always_rotates envC10 lC10 [9] rfl rfl rfl (by decide)).2
     lC10 envC10.now rfl⟩

def lC1 : LogFile where
  logFilter := fun _ => true
  fileName := "app.log"
  fullName := "d/app.log"
  rotateName := "d/app-19700101000000.log"
  logPath := "d"
  duration := 1000000000000000000
  LastCreated := 0
  FileInfo := true
  MaxBytes := 100
  BytesWritten := 60
  MaxFiles := 0

def envC1 : Env where
  now := 1000
  openOk := fun _ => true
  closeOk := true
  renameOk := true
  dirEntries := []
  writeRet := (50, false)

/-- C1 counterexample: with maxBytes = 100, bytesWritten = 60, a fully
successful accepted 50-byte write does not rotate (no rename happens)
and leaves bytesWritten at 110, not 50: the size check compares the
bytes already written, before the incoming record is counted. -/
theorem c1_counterexample :
    (Write envC1 lC1 (List.replicate 50 0)).2.1.BytesWritten = 110 ∧
    renameCount (Write envC1 lC1 (List.replicate 50 0)).2.2 = 0 ∧
    (Write envC1 lC1 (List.replicate 50 0)).1 = (50, false) := by decide

/-- C1 (amended): size-based rotation does not count the incoming
record: an accepted write entered with bytesWritten = 60 < maxBytes =
100 writes without rotating (leaving bytesWritten = 110, as the
counterexample shows), and rotation instead fires on an accepted write
entered with bytesWritten ≥ maxBytes > 0, which first rotates (the old
active file is renamed to the timestamp-suffixed name and a new active
file is opened) and then writes, leaving bytesWritten = len(record). -/
theorem c1_amended_size_rotation (env : Env) (l : LogFile) (b : List Nat)
    (hfil : l.logFilter b = true) (hF : l.FileInfo = true)
    (hMB : l.MaxBytes > 0) (hBW : l.BytesWritten ≥ l.MaxBytes)
    (ho : env.openOk (activePath l) = true) (hw : env.writeRet = (b.length, false)) :
    Write env l b =
      ((b.length, false),
       { l with fullName := activePath l, rotateName := rotatedPath l (unixSec env.now),
                FileInfo := true, LastCreated := env.now, BytesWritten := (b.length : Int) },
       FSOp.closeFile env.closeOk ::
         FSOp.rename l.fullName l.rotateName env.renameOk ::
           (walkPrune env.now env.dirEntries ++
             [FSOp.openFile (activePath l) true, FSOp.fileWrite b.length false])) := by
  have hc : rotateCond l env.now = true :=
    (rotateCond_iff l env.now).mpr (Or.inl ⟨hBW, hMB⟩)
  rw [write_rotation_ok env l b hfil hF hc ho, hw]

def lC1b : LogFile where
  logFilter := fun _ => true
  fileName := "app.log"
  fullName := "d/app.log"
  rotateName := "d/app-19700101000000.log"
  logPath := "d"
  duration := 1000000000000000000
  LastCreated := 0
  FileInfo := true
  MaxBytes := 100
  BytesWritten := 110
  MaxFiles := 0

theorem c1_amended_size_rotation_witness :
    Write envC1 lC1b (List.replicate 50 0) =
      ((50, false),
       { lC1b with fullName := activePath lC1b,
                   rotateName := rotatedPath lC1b (unixSec envC1.now),
                   FileInfo := true, LastCreated := envC1.now, BytesWritten := (50 : Int) },
       FSOp.closeFile envC1.closeOk ::
         FSOp.rename lC1b.fullName lC1b.rotateName envC1.renameOk ::
           (walkPrune envC1.now envC1.dirEntries ++
             [FSOp.openFile (activePath lC1b) true, FSOp.fileWrite 50 false])) :=
  c1_amended_size_rotation envC1 lC1b (List.replicate 50 0) rfl rfl (by decide) (by decide)
    rfl (by decide)

def lC2 : LogFile where
  logFilter := fun _ => true
  fileName := "app.log"
  fullName := "d/app.log"
  rotateName := "d/app-19700101000000.log"
  logPath := "d"
  duration := 1000000000000000000
  LastCreated := 0
  FileInfo := true
  MaxBytes := 100
  BytesWritten := 0
  MaxFiles := 0

def envC2 : Env where
  now := 1000
  openOk := fun _ => true
  closeOk := true
  renameOk := true
  dirEntries := []
  writeRet := (20, true)

/-- C2 counterexample: a 50-byte accepted record whose underlying file
write stops after 20 bytes with an error still increments bytesWritten
by the full 50, not by the 20 actually written, although (20, error) is
returned to the caller. -/
theorem c2_counterexample :
    (Write envC2 lC2 (List.replicate 50 0)).1 = (20, true) ∧
    (Write envC2 lC2 (List.replicate 50 0)).2.1.BytesWritten = 50 := by decide

/-- C2 (amended): on an accepted write (here isolated from rotation),
bytesWritten is incremented by len(record) unconditionally, before and
regardless of the underlying file write's outcome; the underlying
write's (partial count, error) pair is returned to the caller as is. -/
theorem c2_amended_full_increment (env : Env) (l : LogFile) (b : List Nat)
    (hfil : l.logFilter b = true) (hF : l.FileInfo = true)
    (hc : rotateCond l env.now = false) :
    (Write env l b).1 = env.writeRet ∧
    (Write env l b).2.1.BytesWritten = l.BytesWritten + (b.length : Int) := by
  rw [write_no_rotation env l b hfil hF hc]
  exact ⟨rfl, rfl⟩

theorem c2_amended_full_increment_witness :
    (Write envC2 lC2 (List.replicate 50 0)).1 = envC2.writeRet ∧
    (Write envC2 lC2 (List.replicate 50 0)).2.1.BytesWritten =
      lC2.BytesWritten + ((List.replicate 50 (0 : Nat)).length : Int) :=
  c2_amended_full_increment envC2 lC2 (List.replicate 50 0) rfl rfl (by decide)

/-- The files the age-pruning walk deletes, characterized directly:
among the entries that precede the first fresh ".log" file (the walk
stops there), exactly the non-directory ".log"-suffixed ones whose
modification time is more than thirty days old. -/
def walkPruneSpec (nowT : Int) (es : List DirEntry) : List String :=
  ((es.takeWhile fun e =>
      e.isDir || !(decide (".log".data <:+ e.name.data)) ||
        decide (nowT - e.modTime > thirtyDays)).filter fun e =>
      !e.isDir && decide (".log".data <:+ e.name.data) &&
        decide (nowT - e.modTime > thirtyDays)).map DirEntry.path

theorem removes_append (t1 t2 : List FSOp) :
    removes (t1 ++ t2) = removes t1 ++ removes t2 :=
  List.filterMap_append _ _ _

theorem walkPruneSpec_cons_dir (t : Int) (e : DirEntry) (rest : List DirEntry)
    (h : e.isDir = true) :
    walkPruneSpec t (e :: rest) = walkPruneSpec t rest := by
  simp [walkPruneSpec, List.takeWhile_cons, List.filter_cons, h]

theorem walkPruneSpec_cons_notlog (t : Int) (e : DirEntry) (rest : List DirEntry)
    (h1 : e.isDir = false) (h2 : ¬ (".log".data <:+ e.name.data)) :
    walkPruneSpec t (e :: rest) = walkPruneSpec t rest := by
  simp [walkPruneSpec, List.takeWhile_cons, List.filter_cons, h1, h2]

theorem walkPruneSpec_cons_stale (t : Int) (e : DirEntry) (rest : List DirEntry)
    (h1 : e.isDir = false) (h2 : ".log".data <:+ e.name.data)
    (h3 : t - e.modTime > thirtyDays) :
    walkPruneSpec t (e :: rest) = e.path :: walkPruneSpec t rest := by
  simp [walkPruneSpec, List.takeWhile_cons, List.filter_cons, h1, h2, h3]

theorem walkPruneSpec_cons_fresh (t : Int) (e : DirEntry) (rest : List DirEntry)
    (h1 : e.isDir = false) (h2 : ".log".data <:+ e.name.data)
    (h3 : ¬ (t - e.modTime > thirtyDays)) :
    walkPruneSpec t (e :: rest) = [] := by
  simp [walkPruneSpec, List.takeWhile_cons, h1, h2, h3]

theorem removes_walkPrune (t : Int) (es : List DirEntry) :
    removes (walkPrune t es) = walkPruneSpec t es := by
  induction es with
  | nil => rfl
  | cons e rest ih =>
    by_cases h1 : e.isDir = true
    · rw [walkPrune, if_pos h1, ih, walkPruneSpec_cons_dir t e rest h1]
    · have h1' : e.isDir = false := by simpa using h1
      by_cases h2 : ".log".data <:+ e.name.data
      · by_cases h3 : t - e.modTime > thirtyDays
        · rw [walkPrune, if_neg (by simp [h1']), if_neg (by simpa using h2), if_pos h3,
            walkPruneSpec_cons_stale t e rest h1' h2 h3]
          show e.path :: removes (walkPrune t rest) = _
          rw [ih]
        · rw [walkPrune, if_neg (by simp [h1']), if_neg (by simpa using h2), if_neg h3,
            walkPruneSpec_cons_fresh t e rest h1' h2 h3]
          rfl
      · rw [walkPrune, if_neg (by simp [h1']), if_pos h2, ih,
          walkPruneSpec_cons_notlog t e rest h1' h2]

def lC5 : LogFile where
  logFilter := fun _ => true
  fileName := "app.txt"
  fullName := "d/app.txt"
  rotateName := "d/app-19700101000000.txt"
  logPath := "d"
  duration := 0
  LastCreated := 0
  FileInfo := true
  MaxBytes := 0
  BytesWritten := 0
  MaxFiles := 0

def envC5 : Env where
  now := 2592000000000001000
  openOk := fun _ => true
  closeOk := true
  renameOk := true
  dirEntries := [⟨"d/old.txt", "old.txt", false, 0⟩, ⟨"d/old.log", "old.log", false, 0⟩]
  writeRet := (1, false)

/-- C5 counterexample: the base file is "app.txt" (extension ".txt"),
and the directory holds two non-directory files both more than 30 days
old, "old.txt" and "old.log".  The claim says exactly the files sharing
the base extension are deleted, i.e. ["d/old.txt"]; the rotation
actually deletes ["d/old.log"]: the walk matches the hardcoded ".log"
suffix, so the stale ".txt" file is retained and the ".log" file
deleted (no early-stop excuse applies: the retained ".txt" file is
stale and precedes no fresh ".log" file). -/
theorem c5_counterexample :
    rotateCond lC5 envC5.now = true ∧
    removes (rotate envC5 lC5).2.2 = ["d/old.log"] := by decide

/-- C5 (amended): during a rotation, age-based pruning scans the
directory in traversal order and deletes exactly those non-directory
files carrying the hardcoded ".log" suffix (not the base file's
extension) whose modification time is more than 30 days old and that
appear before the first non-stale ".log" file, where the scan stops;
fresher files are retained, and the scan is independent of maxFiles. -/
theorem c5_amended_age_pruning (env : Env) (l : LogFile)
    (hc : rotateCond l env.now = true) :
    removes (rotate env l).2.2 = walkPruneSpec env.now env.dirEntries ∧
    (∀ k : Int, removes (rotate env { l with MaxFiles := k }).2.2 =
      removes (rotate env l).2.2) := by
  have hmain : ∀ l' : LogFile, rotateCond l' env.now = true →
      removes (rotate env l').2.2 = walkPruneSpec env.now env.dirEntries := by
    intro l' hc'
    rw [rotate, if_pos hc']
    show removes (FSOp.closeFile _ :: FSOp.rename _ _ _ ::
      (walkPrune env.now env.dirEntries ++ (openNew env l').2.2)) = _
    have hop : removes (openNew env l').2.2 = [] := by
      rw [openNew_eq]
      split_ifs <;> rfl
    show removes (walkPrune env.now env.dirEntries ++ (openNew env l').2.2) = _
    rw [removes_append, hop, List.append_nil, removes_walkPrune]
  refine ⟨hmain l hc, fun k => ?_⟩
  rw [hmain l hc, hmain { l with MaxFiles := k } hc]

theorem c5_amended_age_pruning_witness :
    removes (rotate envC5 lC5).2.2 = walkPruneSpec envC5.now envC5.dirEntries ∧
    removes (rotate envC5 { lC5 with MaxFiles := 7 }).2.2 =
      removes (rotate envC5 lC5).2.2 :=
  ⟨(c5_amended_age_pruning envC5 lC5 (by decide)).1,
   (c5_amended_age_pruning envC5 lC5 (by decide)).2 7⟩

theorem openNew_flags (env : Env) (l : LogFile) (c r : Bool) :
    openNew { env with closeOk := c, renameOk := r } l = openNew env l := rfl

theorem rotate_flags (env : Env) (l : LogFile) (c r : Bool) :
    (rotate { env with closeOk := c, renameOk := r } l).1 = (rotate env l).1 ∧
    (rotate { env with closeOk := c, renameOk := r } l).2.1 = (rotate env l).2.1 := by
  rw [rotate, rotate]
  by_cases hc : rotateCond l env.now = true
  · rw [if_pos hc, if_pos hc]
    exact ⟨rfl, rfl⟩
  · rw [if_neg hc, if_neg hc]
    exact ⟨rfl, rfl⟩

theorem Write_flags (env : Env) (l : LogFile) (b : List Nat) (c r : Bool) :
    (Write { env with closeOk := c, renameOk := r } l b).1 = (Write env l b).1 ∧
    (Write { env with closeOk := c, renameOk := r } l b).2.1 = (Write env l b).2.1 := by
  rw [Write, Write]
  by_cases hfil : l.logFilter b = true
  · rw [if_pos hfil, if_pos hfil]
    rcases hEq : (if l.FileInfo then (true, l, ([] : List FSOp)) else openNew env l) with
      ⟨ok1, l1, tr1⟩
    have hEq' : (if l.FileInfo then (true, l, ([] : List FSOp))
        else openNew { env with closeOk := c, renameOk := r } l) = (ok1, l1, tr1) := by
      rw [openNew_flags]
      exact hEq
    rw [hEq']
    cases ok1 with
    | false => exact ⟨rfl, rfl⟩
    | true =>
      dsimp only
      rcases hR : rotate env l1 with ⟨ok2, l2, tr2⟩
      rcases hR' : rotate { env with closeOk := c, renameOk := r } l1 with ⟨ok2', l2', tr2'⟩
      have h12 := rotate_flags env l1 c r
      rw [hR, hR'] at h12
      obtain ⟨e1, e2⟩ := h12
      dsimp at e1 e2
      rw [e1, e2]
      cases ok2 <;> exact ⟨rfl, rfl⟩
  · rw [if_neg hfil, if_neg hfil]
    exact ⟨rfl, rfl⟩

/-- C7: close and rename failures during rotation are never surfaced to
the Write caller — the returned value and the resulting writer state do
not depend on whether Close or Rename succeeded — and rotation proceeds
to open a new active file regardless; the rename target of the old
active file is the stored rotated path, which openNew stamps with the
file's creation time (rotateName = rotatedPath(createdAt) whenever a
file is opened). -/
theorem c7_rotation_failures_swallowed (env : Env) (l : LogFile) (b : List Nat) (c r : Bool)
    (hc : rotateCond l env.now = true) :
    (Write { env with closeOk := c, renameOk := r } l b).1 = (Write env l b).1 ∧
    (Write { env with closeOk := c, renameOk := r } l b).2.1 = (Write env l b).2.1 ∧
    (∃ ok : Bool, FSOp.openFile (activePath l) ok ∈ (rotate env l).2.2) ∧
    FSOp.rename l.fullName l.rotateName env.renameOk ∈ (rotate env l).2.2 ∧
    (∀ (env0 : Env) (l0 : LogFile), (openNew env0 l0).1 = true →
      (openNew env0 l0).2.1.rotateName = rotatedPath l0 (unixSec env0.now) ∧
      (openNew env0 l0).2.1.LastCreated = env0.now) := by
  have htr : (rotate env l).2.2 =
      FSOp.closeFile env.closeOk :: FSOp.rename l.fullName l.rotateName env.renameOk ::
        (walkPrune env.now env.dirEntries ++ (openNew env l).2.2) := by
    rw [rotate, if_pos hc]
  refine ⟨(Write_flags env l b c r).1, (Write_flags env l b c r).2, ?_, ?_, ?_⟩
  · refine ⟨env.openOk (activePath l), ?_⟩
    rw [htr]
    have : FSOp.openFile (activePath l) (env.openOk (activePath l)) ∈ (openNew env l).2.2 := by
      rw [openNew_eq]
      by_cases ho : env.openOk (activePath l) = true
      · rw [if_pos ho, ho]
        exact List.mem_singleton.mpr rfl
      · have ho' : env.openOk (activePath l) = false := by simpa using ho
        rw [if_neg ho, ho']
        exact List.mem_singleton.mpr rfl
    exact List.mem_cons_of_mem _ (List.mem_cons_of_mem _
      (List.mem_append_right _ this))
  · rw [htr]
    exact List.mem_cons_of_mem _ (List.mem_cons_self _ _)
  · intro env0 l0 hok
    rw [openNew_eq] at hok ⊢
    by_cases ho : env0.openOk (activePath l0) = true
    · rw [if_pos ho]
      exact ⟨rfl, rfl⟩
    · rw [if_neg ho] at hok
      exact absurd hok (by simp)

def lC7 : LogFile where
  logFilter := fun _ => true
  fileName := "app.log"
  fullName := "d/app.log"
  rotateName := "d/app-19700101000000.log"
  logPath := "d"
  duration := 0
  LastCreated := 0
  FileInfo := true
  MaxBytes := 0
  BytesWritten := 0
  MaxFiles := 0

def envC7 : Env where
  now := 0
  openOk := fun _ => true
  closeOk := true
  renameOk := true
  dirEntries := []
  writeRet := (1, false)

theorem c7_rotation_failures_swallowed_witness :
    (Write { envC7 with closeOk := false, renameOk := false } lC7 [5]).1 =
      (Write envC7 lC7 [5]).1 ∧
    (Write { envC7 with closeOk := false, renameOk := false } lC7 [5]).2.1 =
      (Write envC7 lC7 [5]).2.1 ∧
    FSOp.rename lC7.fullName lC7.rotateName envC7.renameOk ∈ (rotate envC7 lC7).2.2 ∧
    (openNew envC7 lC7).2.1.rotateName = rotatedPath lC7 (unixSec envC7.now) ∧
    (openNew envC7 lC7).2.1.LastCreated = envC7.now :=
  ⟨(c7_rotation_failures_swallowed envC7 lC7 [5] false false (by decide)).1,
   (c7_rotation_failures_swallowed envC7 lC7 [5] false false (by decide)).2.1,
   (c7_rotation_failures_swallowed envC7 lC7 [5] false false (by decide)).2.2.2.1,
   ((c7_rotation_failures_swallowed envC7 lC7 [5] false false (by decide)).2.2.2.2
     envC7 lC7 (by decide)).1,
   ((c7_rotation_failures_swallowed envC7 lC7 [5] false false (by decide)).2.2.2.2
     envC7 lC7 (by decide)).2⟩

def lC8 : LogFile where
  logFilter := fun _ => true
  fileName := "app.log"
  fullName := "f0"
  rotateName := "r0"
  logPath := "d"
  duration := 1000
  LastCreated := 0
  FileInfo := false
  MaxBytes := 100
  BytesWritten := 0
  MaxFiles := 0

def envC8 : Env where
  now := 0
  openOk := fun _ => false
  closeOk := true
  renameOk := true
  dirEntries := []
  writeRet := (1, false)

/-- C8 counterexample: a first accepted write whose lazy open fails
does propagate the error with 0 bytes and installs no handle, but it
does mutate writer state: the cached path fields are recomputed — here
rotateName changes from "r0" to "d/app-19700101000000.log" and fullName
from "f0" to "d/app.log" — contradicting the claim that no writer state
is mutated by the failed call. -/
theorem c8_counterexample :
    (Write envC8 lC8 [1]).1 = (0, true) ∧
    (Write envC8 lC8 [1]).2.1.FileInfo = false ∧
    (Write envC8 lC8 [1]).2.1.rotateName = "d/app-19700101000000.log" ∧
    (Write envC8 lC8 [1]).2.1.fullName = "d/app.log" ∧
    lC8.rotateName = "r0" ∧ lC8.fullName = "f0" := by decide

/-- C8 (amended): when opening the active file fails — lazily on the
first accepted write, or on the reopen after a rotation — the error is
propagated to the Write caller with 0 bytes accepted, no new handle is
installed, and FileInfo, LastCreated, BytesWritten are unchanged;
however the failed call does update the cached path fields fullName and
rotateName to the paths computed for the attempted open (and after a
rotation the close and rename of the old file have already
happened). -/
theorem c8_amended_open_failure (env : Env) (l : LogFile) (b : List Nat)
    (hfil : l.logFilter b = true) (ho : env.openOk (activePath l) = false) :
    (l.FileInfo = false →
      Write env l b = ((0, true),
        { l with fullName := activePath l, rotateName := rotatedPath l (unixSec env.now) },
        [FSOp.openFile (activePath l) false])) ∧
    (l.FileInfo = true → rotateCond l env.now = true →
      Write env l b = ((0, true),
        { l with fullName := activePath l, rotateName := rotatedPath l (unixSec env.now) },
        FSOp.closeFile env.closeOk ::
          FSOp.rename l.fullName l.rotateName env.renameOk ::
            (walkPrune env.now env.dirEntries ++ [FSOp.openFile (activePath l) false]))) := by
  constructor
  · intro hF
    exact write_lazy_open_fails env l b hfil hF ho
  · intro hF hc
    exact write_rotation_reopen_fails env l b hfil hF hc ho

theorem c8_amended_open_failure_witness :
    Write envC8 lC8 [1] = ((0, true),
      { lC8 with fullName := activePath lC8,
                 rotateName := rotatedPath lC8 (unixSec envC8.now) },
      [FSOp.openFile (activePath lC8) false]) :=
  (c8_amended_open_failure envC8 lC8 [1] rfl rfl).1 rfl

theorem rotateCond_update_maxFiles (l : LogFile) (k : Int) (t : Int) :
    rotateCond { l with MaxFiles := k } t = rotateCond l t := rfl

theorem activePath_update_maxFiles (l : LogFile) (k : Int) :
    activePath { l with MaxFiles := k } = activePath l := rfl

theorem rotatedPath_update_maxFiles (l : LogFile) (k : Int) (sec : Int) :
    rotatedPath { l with MaxFiles := k } sec = rotatedPath l sec := rfl

theorem openNew_maxFiles (env : Env) (l : LogFile) (k : Int) :
    openNew env { l with MaxFiles := k } =
      ((openNew env l).1, { (openNew env l).2.1 with MaxFiles := k }, (openNew env l).2.2) := by
  simp only [openNew_eq, activePath_update_maxFiles, rotatedPath_update_maxFiles]
  by_cases ho : env.openOk (activePath l) = true <;> simp [ho]

theorem rotate_maxFiles (env : Env) (l : LogFile) (k : Int) :
    rotate env { l with MaxFiles := k } =
      ((rotate env l).1, { (rotate env l).2.1 with MaxFiles := k }, (rotate env l).2.2) := by
  simp only [rotate, rotateCond_update_maxFiles]
  by_cases hc : rotateCond l env.now = true <;> simp [hc, openNew_maxFiles]

theorem Write_maxFiles (env : Env) (l : LogFile) (b : List Nat) (k : Int) :
    Write env { l with MaxFiles := k } b =
      ((Write env l b).1, { (Write env l b).2.1 with MaxFiles := k }, (Write env l b).2.2) := by
  by_cases hfil : l.logFilter b = true
  · by_cases hF : l.FileInfo = true
    · rcases hR : rotate env l with ⟨ok2, l2, tr2⟩
      have hR' : rotate env { l with MaxFiles := k } = (ok2, { l2 with MaxFiles := k }, tr2) := by
        rw [rotate_maxFiles, hR]
      simp only [Write]
      dsimp only
      rw [if_pos hfil, if_pos hfil, if_pos hF, if_pos hF]
      dsimp only
      rw [hR', hR]
      cases ok2 <;> simp
    · have hF' : l.FileInfo = false := by simpa using hF
      rcases hO : openNew env l with ⟨ok1, l1, tr1⟩
      have hO' : openNew env { l with MaxFiles := k } = (ok1, { l1 with MaxFiles := k }, tr1) := by
        rw [openNew_maxFiles, hO]
      simp only [Write]
      dsimp only
      rw [if_pos hfil, if_pos hfil, if_neg (by simp [hF']), if_neg (by simp [hF']), hO, hO']
      cases ok1 with
      | false => simp
      | true =>
        dsimp only
        rcases hR : rotate env l1 with ⟨ok2, l2, tr2⟩
        have hR' : rotate env { l1 with MaxFiles := k } =
            (ok2, { l2 with MaxFiles := k }, tr2) := by
          rw [rotate_maxFiles, hR]
        rw [hR']
        cases ok2 <;> simp
  · simp [Write, hfil]

/-- C9: count-based retention is dormant — the value, trace, and state
of any Write are unaffected by MaxFiles (the state merely carries the
field through), so pruneFiles is never exercised by Write or rotation —
and as a standalone operation pruneFiles deletes nothing when
maxFiles = 0, while for maxFiles > 0 it deletes the first
(match count - maxFiles) of the sorted glob matches, i.e. the
lexicographically oldest excess. -/
theorem c9_prune_dormant (env : Env) (l : LogFile) (b : List Nat) (k : Int)
    (files : List String) :
    (Write env { l with MaxFiles := k } b).1 = (Write env l b).1 ∧
    (Write env { l with MaxFiles := k } b).2.2 = (Write env l b).2.2 ∧
    (Write env { l with MaxFiles := k } b).2.1 = { (Write env l b).2.1 with MaxFiles := k } ∧
    (l.MaxFiles = 0 → pruneFiles l files = []) ∧
    (l.MaxFiles > 0 → pruneFiles l files =
      (globMatches l files).take
        (((globMatches l files).length : Int) - l.MaxFiles).toNat) := by
  have hW := Write_maxFiles env l b k
  refine ⟨by rw [hW], by rw [hW], by rw [hW], fun h0 => by simp [pruneFiles, h0],
    fun hpos => ?_⟩
  rw [pruneFiles, if_neg (by omega)]

def lC9a : LogFile where
  logFilter := fun _ => true
  fileName := "app.log"
  fullName := "d/app.log"
  rotateName := "d/app-19700101000000.log"
  logPath := "d"
  duration := 1000
  LastCreated := 0
  FileInfo := true
  MaxBytes := 100
  BytesWritten := 5
  MaxFiles := 0

def lC9b : LogFile where
  logFilter := fun _ => true
  fileName := "app.log"
  fullName := "d/app.log"
  rotateName := "d/app-19700101000000.log"
  logPath := "d"
  duration := 1000
  LastCreated := 0
  FileInfo := true
  MaxBytes := 100
  BytesWritten := 5
  MaxFiles := 2

def envC9 : Env where
  now := 10
  openOk := fun _ => true
  closeOk := true
  renameOk := true
  dirEntries := []
  writeRet := (1, false)

theorem c9_prune_dormant_witness :
    pruneFiles lC9a ["app-1.log", "app-2.log", "app-3.log"] = [] ∧
    pruneFiles lC9b ["app-1.log", "app-2.log", "app-3.log"] =
      (globMatches lC9b ["app-1.log", "app-2.log", "app-3.log"]).take
        (((globMatches lC9b ["app-1.log", "app-2.log", "app-3.log"]).length : Int) -
          lC9b.MaxFiles).toNat ∧
    (Write envC9 { lC9b with MaxFiles := 5 } [1]).1 = (Write envC9 lC9b [1]).1 :=
  ⟨(c9_prune_dormant envC9 lC9a [1] 5 ["app-1.log", "app-2.log", "app-3.log"]).2.2.2.1 rfl,
   (c9_prune_dormant envC9 lC9b [1] 5 ["app-1.log", "app-2.log", "app-3.log"]).2.2.2.2
     (by decide),
   (c9_prune_dormant envC9 lC9b [1] 5 ["app-1.log", "app-2.log", "app-3.log"]).1⟩

end GoHclog
